import Mathlib

/-!
Verification development for the ObjectDrawer command pipeline.

Shallow embedding of the repository's geometry utilities (`Utility.cpp`),
shape constructors (`LineShape.cpp`, `TriangleShape.cpp`, `RectangleShape.cpp`,
`SquareShape.cpp`), the command dispatcher (`CommandDispatcher.cpp`) and the
shape repository (`ShapeRepository.h`).

Coordinates are modelled as rational numbers standing for the C++ `double`
values; all source arithmetic used here (+, -, *, /, min, max, abs,
comparisons) is exact on the inputs considered, so ℚ is a faithful carrier.
`qSqrt` is the one operation with no exact rational counterpart; definitions
that depend on it take the square-root function as an explicit parameter,
and theorems constrain that parameter by the defining property of the square
root on the values where the source applies it.
-/

attribute [local semireducible] Rat.sub Rat.add Rat.mul Rat.inv

/-- 2D point, modelling `QPointF` (x, y). -/
abbrev Pt : Type := ℚ × ℚ

namespace Utility

/-- `Utility::sub`: the vector difference `a - b`. -/
def sub (a b : Pt) : Pt := (a.1 - b.1, a.2 - b.2)

/-- `Utility::dot`: dot product of vectors represented by two points. -/
def dot (a b : Pt) : ℚ := a.1 * b.1 + a.2 * b.2

/-- `Utility::dist2`: squared Euclidean distance between two points. -/
def dist2 (a b : Pt) : ℚ :=
  let v := sub a b
  v.1 * v.1 + v.2 * v.2

/-- Default tolerance `1e-6` used by `areCollinear`, `isRectangle`, `isSquare`
(declared in `Utility.h`). -/
def eps6 : ℚ := 1 / 1000000

/-- Default tolerance `1e-9` used by `isValidSquareDiagonal`
(declared in `Utility.h`). -/
def eps9 : ℚ := 1 / 1000000000

/-- `Utility::areCollinear`: `|cross (b-a) (c-a)| < eps`. -/
def areCollinear (a b c : Pt) (eps : ℚ) : Bool :=
  let ab := sub b a
  let ac := sub c a
  let cross := ab.1 * ac.2 - ab.2 * ac.1
  decide (|cross| < eps)

/-- `Utility::isRightAngle` (file-static helper): the angle at `b` is right,
i.e. `|(a-b) ⬝ (c-b)| < eps`. -/
def isRightAngle (a b c : Pt) (eps : ℚ) : Bool :=
  let v1 := sub a b
  let v2 := sub c b
  decide (|dot v1 v2| < eps)

/-- The strict comparator passed to `std::sort` in `isRectangle`/`isSquare`:
order by x, then by y on ties. -/
def ptLT (a b : Pt) : Bool :=
  if a.1 = b.1 then decide (a.2 < b.2) else decide (a.1 < b.1)

/-- Insert a point into a list sorted by `ptLT` (used to model `std::sort`;
the comparator is a strict weak order whose equivalence classes are single
point values, so every conforming sort yields this same value sequence). -/
def insertPt (p : Pt) : List Pt → List Pt
  | [] => [p]
  | q :: qs => if ptLT p q then p :: q :: qs else q :: insertPt p qs

/-- Sort a list of points by `ptLT` (models the `std::sort` call). -/
def sortPts (l : List Pt) : List Pt := l.foldr insertPt []

/-- `Utility::isRectangle`: sort the four points by (x, then y), then require
a right angle at the two extreme corners (both pairings tried) and equal
squared lengths of opposite sides. -/
def isRectangle (p1 p2 p3 p4 : Pt) (eps : ℚ) : Bool :=
  let pts := sortPts [p1, p2, p3, p4]
  let A := pts.getD 0 (0, 0)
  let B := pts.getD 1 (0, 0)
  let C := pts.getD 2 (0, 0)
  let D := pts.getD 3 (0, 0)
  let rightA := isRightAngle B A C eps || isRightAngle C A B eps
  let rightD := isRightAngle B D C eps || isRightAngle C D B eps
  let dAB := dist2 A B
  let dCD := dist2 C D
  let dAC := dist2 A C
  let dBD := dist2 B D
  let oppEqual := decide (|dAB - dCD| < eps) && decide (|dAC - dBD| < eps)
  rightA && rightD && oppEqual

/-- `Utility::isSquare`: sort the four points, require `isRectangle` on the
sorted corners, then require the two nearest-neighbour squared side
estimates (from the two extreme sorted corners) to agree and exceed `eps`. -/
def isSquare (p1 p2 p3 p4 : Pt) (eps : ℚ) : Bool :=
  let pts := sortPts [p1, p2, p3, p4]
  let A := pts.getD 0 (0, 0)
  let B := pts.getD 1 (0, 0)
  let C := pts.getD 2 (0, 0)
  let D := pts.getD 3 (0, 0)
  if !isRectangle A B C D eps then false
  else
    let s1 := min (dist2 A B) (dist2 A C)
    let s2 := min (dist2 D B) (dist2 D C)
    decide (|s1 - s2| < eps) && decide (s1 > eps)

/-- `Utility::isValidSquareDiagonal`: the squared diagonal length
exceeds `eps`. -/
def isValidSquareDiagonal (d1 d2 : Pt) (eps : ℚ) : Bool :=
  decide (dist2 d1 d2 > eps)

end Utility

/-- ASCII whitespace: the characters matched by `QChar::isSpace` (used by
`QString::trimmed`) and by the `\s` class of the tokenizing regular
expression in `CommandParser::parse`. -/
def isWS (c : Char) : Bool :=
  c = ' ' || c = '\t' || c = '\n' || c = '\r' || c = '\x0b' || c = '\x0c'

/-- `QString::trimmed`: remove leading and trailing whitespace. -/
def qtrim (s : String) : String :=
  String.mk (((s.data.dropWhile isWS).reverse.dropWhile isWS).reverse)

/-- First-match lookup in an association list, modelling `QMap::operator[]` /
`QMap::value` on the parsed command's maps (keys are unique per command). -/
def lookupAssoc (l : List (String × α)) (k : String) : Option α :=
  match l with
  | [] => none
  | (k', v) :: rest => if k' = k then some v else lookupAssoc rest k

/-- Key-replacing insert, modelling `QMap::insert` (an existing key's value
is overwritten, otherwise the pair is appended). -/
def insertAssoc (l : List (String × α)) (k : String) (v : α) : List (String × α) :=
  match l with
  | [] => [(k, v)]
  | (k', v') :: rest => if k' = k then (k, v) :: rest else (k', v') :: insertAssoc rest k v

/-- The parsed command structure of `CommandParser.h`: command name, generic
flag-value pairs, and parsed coordinate pairs. -/
structure Command where
  name : String
  args : List (String × String)
  coords : List (String × Pt)
deriving DecidableEq

/-- Membership test on a command's maps, modelling `QMap::contains`. -/
def Command.argsContains (cmd : Command) (k : String) : Bool :=
  (lookupAssoc cmd.args k).isSome

/-- Membership test on the coordinate map, modelling `QMap::contains`. -/
def Command.coordsContains (cmd : Command) (k : String) : Bool :=
  (lookupAssoc cmd.coords k).isSome

/-- The shape variants of the repository (`LineShape`, `TriangleShape`,
`RectangleShape`, `SquareShape`).  `pts` models the shape's `m_pts` member;
for rectangle and square, `polygon` models the `QPolygonF` installed on the
`QGraphicsPolygonItem` (for line and triangle the graphics item is built
directly from the stored points). -/
inductive Shape where
  | line (p1 p2 : Pt)
  | triangle (p1 p2 p3 : Pt)
  | rect (pts polygon : List Pt)
  | square (pts polygon : List Pt)
deriving DecidableEq

/-- `RectangleShape::RectangleShape(name, p1, p2)`: axis-aligned corners
from two diagonal points (min/max of each axis), used for both `m_pts` and
the rendered polygon. -/
def RectangleShape.fromDiagonal (p1 p2 : Pt) : Shape :=
  let x1 := min p1.1 p2.1
  let x2 := max p1.1 p2.1
  let y1 := min p1.2 p2.2
  let y2 := max p1.2 p2.2
  Shape.rect [(x1, y1), (x2, y1), (x2, y2), (x1, y2)]
    [(x1, y1), (x2, y1), (x2, y2), (x1, y2)]

/-- `RectangleShape::RectangleShape(name, points)` at its only call site
(four corners): `m_pts` keeps the caller's points, while the rendered
polygon is the axis-aligned bounding box.  The source initialises the
min/max accumulators with `points[0]` and then folds over all four points;
the fold is written here with the same redundant first step. -/
def RectangleShape.fromCorners (p1 p2 p3 p4 : Pt) : Shape :=
  let minX := min (min (min (min p1.1 p1.1) p2.1) p3.1) p4.1
  let maxX := max (max (max (max p1.1 p1.1) p2.1) p3.1) p4.1
  let minY := min (min (min (min p1.2 p1.2) p2.2) p3.2) p4.2
  let maxY := max (max (max (max p1.2 p1.2) p2.2) p3.2) p4.2
  Shape.rect [p1, p2, p3, p4]
    [(minX, minY), (maxX, minY), (maxX, maxY), (minX, maxY)]

/-- `SquareShape::SquareShape(name, vertices)` at its only call site (four
vertices): both `m_pts` and the rendered polygon are the caller's vertices,
in the caller's order. -/
def SquareShape.fromVertices (v1 v2 v3 v4 : Pt) : Shape :=
  Shape.square [v1, v2, v3, v4] [v1, v2, v3, v4]

/-- `SquareShape::SquareShape(name, d1, d2)`: corners derived from the
diagonal.  `s` models `qSqrt`; the source guards the division that builds
the unit vector with an explicit `len == 0.0` test. -/
def SquareShape.fromDiagonal (s : ℚ → ℚ) (d1 d2 : Pt) : Shape :=
  let v : Pt := (d2.1 - d1.1, d2.2 - d1.2)
  let M : Pt := ((d1.1 + d2.1) / 2, (d1.2 + d2.2) / 2)
  let half := s (v.1 * v.1 + v.2 * v.2) / 2
  let len := s (v.1 * v.1 + v.2 * v.2)
  let ux := if len = 0 then 0 else v.1 / len
  let uy := if len = 0 then 0 else v.2 / len
  let w1 : Pt := (-uy, ux)
  let sideHalf := half / s 2
  let a : Pt := (M.1 + v.1 / 2 + w1.1 * sideHalf, M.2 + v.2 / 2 + w1.2 * sideHalf)
  let b : Pt := (M.1 - v.1 / 2 + w1.1 * sideHalf, M.2 - v.2 / 2 + w1.2 * sideHalf)
  let c : Pt := (M.1 - v.1 / 2 - w1.1 * sideHalf, M.2 - v.2 / 2 - w1.2 * sideHalf)
  let d : Pt := (M.1 + v.1 / 2 - w1.1 * sideHalf, M.2 + v.2 / 2 - w1.2 * sideHalf)
  Shape.square [a, b, c, d] [a, b, c, d]

/-- The same corner computation with the division written unguarded, used
to state that the `len == 0.0` branch is unreachable under the dispatcher's
validation. -/
def SquareShape.fromDiagonalUnguarded (s : ℚ → ℚ) (d1 d2 : Pt) : Shape :=
  let v : Pt := (d2.1 - d1.1, d2.2 - d1.2)
  let M : Pt := ((d1.1 + d2.1) / 2, (d1.2 + d2.2) / 2)
  let half := s (v.1 * v.1 + v.2 * v.2) / 2
  let len := s (v.1 * v.1 + v.2 * v.2)
  let ux := v.1 / len
  let uy := v.2 / len
  let w1 : Pt := (-uy, ux)
  let sideHalf := half / s 2
  let a : Pt := (M.1 + v.1 / 2 + w1.1 * sideHalf, M.2 + v.2 / 2 + w1.2 * sideHalf)
  let b : Pt := (M.1 - v.1 / 2 + w1.1 * sideHalf, M.2 - v.2 / 2 + w1.2 * sideHalf)
  let c : Pt := (M.1 - v.1 / 2 - w1.1 * sideHalf, M.2 - v.2 / 2 - w1.2 * sideHalf)
  let d : Pt := (M.1 + v.1 / 2 - w1.1 * sideHalf, M.2 + v.2 / 2 - w1.2 * sideHalf)
  Shape.square [a, b, c, d] [a, b, c, d]

/-- Center of the axis-aligned bounding box of a polygon, modelling
`QGraphicsPolygonItem::boundingRect().center()` for the polygon shapes (the
pen padding of the item's bounding rectangle is symmetric and does not move
the center). -/
def polygonBBoxCenter : List Pt → Pt
  | [] => (0, 0)
  | p :: rest =>
    let minX := rest.foldl (fun m q => min m q.1) p.1
    let maxX := rest.foldl (fun m q => max m q.1) p.1
    let minY := rest.foldl (fun m q => min m q.2) p.2
    let maxY := rest.foldl (fun m q => max m q.2) p.2
    ((minX + maxX) / 2, (minY + maxY) / 2)

/-- `ShapeBase::center` per variant: `LineShape::center` is the midpoint of
the endpoints, `TriangleShape::center` the average of the three vertices,
`RectangleShape::center` and `SquareShape::center` the center of the
polygon item's bounding rectangle. -/
def Shape.center : Shape → Pt
  | .line p1 p2 => ((p1.1 + p2.1) / 2, (p1.2 + p2.2) / 2)
  | .triangle p1 p2 p3 =>
      ((p1.1 + p2.1 + p3.1) / 3, (p1.2 + p2.2 + p3.2) / 3)
  | .rect _ polygon => polygonBBoxCenter polygon
  | .square _ polygon => polygonBBoxCenter polygon

/-- The shape registry (`ShapeRepository`): a name-keyed store. -/
abbrev Registry : Type := List (String × Shape)

/-- `ShapeRepository::contains`. -/
def ShapeRepository.contains (r : Registry) (n : String) : Bool :=
  (lookupAssoc r n).isSome

/-- `ShapeRepository::add` (precondition `!contains name`, enforced by the
dispatcher before every call). -/
def ShapeRepository.add (r : Registry) (n : String) (s : Shape) : Registry :=
  insertAssoc r n s

/-- `ShapeRepository::get` (`nullptr` becomes `none`). -/
def ShapeRepository.get (r : Registry) (n : String) : Option Shape :=
  lookupAssoc r n

/-- Qt's `qFuzzyCompare(double, double)`:
`qAbs(p1 - p2) * 1000000000000. <= qMin(qAbs(p1), qAbs(p2))`. -/
def qFuzzyCompare (p1 p2 : ℚ) : Bool :=
  decide (|p1 - p2| * 1000000000000 ≤ min |p1| |p2|)

/-- Rendering of a coordinate in user-facing messages (`QString::arg` on a
`double`); the exact digit string is irrelevant to every claim, only that
it is a function of the value. -/
def ratStr (q : ℚ) : String := toString q

/-- `CommandDispatcher::requireName`: the `-name` flag must be present and
non-empty after trimming; returns the trimmed name. -/
def requireName (cmd : Command) : Except String String :=
  match lookupAssoc cmd.args "name" with
  | none => .error "Missing -name flag."
  | some v =>
    let nameOut := qtrim v
    if nameOut = "" then .error "Name cannot be empty." else .ok nameOut

/-- `CommandDispatcher::validateUniqueName`: the name must not already be
registered. -/
def validateUniqueName (r : Registry) (name : String) : Except String Unit :=
  if ShapeRepository.contains r name then
    .error ("An object named '" ++ name ++ "' already exists. Choose a unique name.")
  else .ok ()

/-- `CommandDispatcher::requireCoord`: fetch a coordinate by key. -/
def requireCoord (cmd : Command) (key : String) : Except String Pt :=
  match lookupAssoc cmd.coords key with
  | none => .error ("Missing -" ++ key ++ " coordinate.")
  | some p => .ok p

/-- `CommandDispatcher::handleCreateLine`. -/
def handleCreateLine (cmd : Command) (r : Registry) : Bool × String × Registry :=
  match requireName cmd with
  | .error m => (false, m, r)
  | .ok name =>
  match validateUniqueName r name with
  | .error m => (false, m, r)
  | .ok _ =>
  match requireCoord cmd "coord_1" with
  | .error m => (false, m, r)
  | .ok p1 =>
  match requireCoord cmd "coord_2" with
  | .error m => (false, m, r)
  | .ok p2 =>
    (true,
     "Line '" ++ name ++ "' created from (" ++ ratStr p1.1 ++ "," ++ ratStr p1.2 ++
       ") to (" ++ ratStr p2.1 ++ "," ++ ratStr p2.2 ++ ").",
     ShapeRepository.add r name (Shape.line p1 p2))

/-- `CommandDispatcher::handleCreateTriangle`. -/
def handleCreateTriangle (cmd : Command) (r : Registry) : Bool × String × Registry :=
  match requireName cmd with
  | .error m => (false, m, r)
  | .ok name =>
  match validateUniqueName r name with
  | .error m => (false, m, r)
  | .ok _ =>
  match requireCoord cmd "coord_1" with
  | .error m => (false, m, r)
  | .ok p1 =>
  match requireCoord cmd "coord_2" with
  | .error m => (false, m, r)
  | .ok p2 =>
  match requireCoord cmd "coord_3" with
  | .error m => (false, m, r)
  | .ok p3 =>
    if Utility.areCollinear p1 p2 p3 Utility.eps6 then
      (false, "Triangle vertices are collinear. Provide non-collinear points.", r)
    else
      (true, "Triangle '" ++ name ++ "' created.",
       ShapeRepository.add r name (Shape.triangle p1 p2 p3))

/-- `CommandDispatcher::handleCreateRectangle`: four-corner mode when all of
`coord_1..coord_4` are present, otherwise diagonal mode. -/
def handleCreateRectangle (cmd : Command) (r : Registry) : Bool × String × Registry :=
  match requireName cmd with
  | .error m => (false, m, r)
  | .ok name =>
  match validateUniqueName r name with
  | .error m => (false, m, r)
  | .ok _ =>
  let hasFour := cmd.coordsContains "coord_1" && cmd.coordsContains "coord_2" &&
    cmd.coordsContains "coord_3" && cmd.coordsContains "coord_4"
  if hasFour then
    let p1 := (lookupAssoc cmd.coords "coord_1").getD (0, 0)
    let p2 := (lookupAssoc cmd.coords "coord_2").getD (0, 0)
    let p3 := (lookupAssoc cmd.coords "coord_3").getD (0, 0)
    let p4 := (lookupAssoc cmd.coords "coord_4").getD (0, 0)
    if !Utility.isRectangle p1 p2 p3 p4 Utility.eps6 then
      (false, "Provided corners do not form a rectangle.", r)
    else
      (true, "Rectangle '" ++ name ++ "' created from four corners.",
       ShapeRepository.add r name (RectangleShape.fromCorners p1 p2 p3 p4))
  else
    match requireCoord cmd "coord_1" with
    | .error m => (false, m, r)
    | .ok p1 =>
    match requireCoord cmd "coord_2" with
    | .error m => (false, m, r)
    | .ok p2 =>
      if qFuzzyCompare p1.1 p2.1 || qFuzzyCompare p1.2 p2.2 then
        (false, "Diagonal points must differ in both x and y for a valid rectangle.", r)
      else
        (true, "Rectangle '" ++ name ++ "' created from diagonal points.",
         ShapeRepository.add r name (RectangleShape.fromDiagonal p1 p2))

/-- `CommandDispatcher::handleCreateSquare` (`s` models `qSqrt`, used by the
diagonal-mode constructor). -/
def handleCreateSquare (s : ℚ → ℚ) (cmd : Command) (r : Registry) :
    Bool × String × Registry :=
  match requireName cmd with
  | .error m => (false, m, r)
  | .ok name =>
  match validateUniqueName r name with
  | .error m => (false, m, r)
  | .ok _ =>
  let hasFour := cmd.coordsContains "coord_1" && cmd.coordsContains "coord_2" &&
    cmd.coordsContains "coord_3" && cmd.coordsContains "coord_4"
  if hasFour then
    let p1 := (lookupAssoc cmd.coords "coord_1").getD (0, 0)
    let p2 := (lookupAssoc cmd.coords "coord_2").getD (0, 0)
    let p3 := (lookupAssoc cmd.coords "coord_3").getD (0, 0)
    let p4 := (lookupAssoc cmd.coords "coord_4").getD (0, 0)
    if !Utility.isSquare p1 p2 p3 p4 Utility.eps6 then
      (false, "Provided vertices do not form a square.", r)
    else
      (true, "Square '" ++ name ++ "' created from four vertices.",
       ShapeRepository.add r name (SquareShape.fromVertices p1 p2 p3 p4))
  else
    match requireCoord cmd "coord_1" with
    | .error m => (false, m, r)
    | .ok p1 =>
    match requireCoord cmd "coord_2" with
    | .error m => (false, m, r)
    | .ok p2 =>
      if !Utility.isValidSquareDiagonal p1 p2 Utility.eps9 then
        (false, "Diagonal points do not define a valid square.", r)
      else
        (true, "Square '" ++ name ++ "' created from diagonal points.",
         ShapeRepository.add r name (SquareShape.fromDiagonal s p1 p2))

/-- `CommandDispatcher::handleConnect`: resolves both names and draws a
dashed connector on the scene; the repository is only read. -/
def handleConnect (cmd : Command) (r : Registry) : Bool × String × Registry :=
  if !(cmd.argsContains "object_name_1") || !(cmd.argsContains "object_name_2") then
    (false, "Missing -object_name_1 or -object_name_2.", r)
  else
    let n1 := (lookupAssoc cmd.args "object_name_1").getD ""
    let n2 := (lookupAssoc cmd.args "object_name_2").getD ""
    match ShapeRepository.get r n1, ShapeRepository.get r n2 with
    | some _, some _ =>
        (true, "Connected '" ++ n1 ++ "' and '" ++ n2 ++ "' by their centers.", r)
    | _, _ => (false, "One or both objects not found.", r)

/-- `CommandDispatcher::execute`: dispatch on the command name.  `s` models
`qSqrt`; `runFile` models the `handleExecuteFile` branch, whose behaviour
depends on the file system (see `scriptLoop` below for the loop itself). -/
def CommandDispatcher.execute (s : ℚ → ℚ)
    (runFile : Command → Registry → Bool × String × Registry)
    (cmd : Command) (r : Registry) : Bool × String × Registry :=
  if cmd.name = "create_line" then handleCreateLine cmd r
  else if cmd.name = "create_triangle" then handleCreateTriangle cmd r
  else if cmd.name = "create_rectangle" then handleCreateRectangle cmd r
  else if cmd.name = "create_square" then handleCreateSquare s cmd r
  else if cmd.name = "connect" then handleConnect cmd r
  else if cmd.name = "execute_file" then runFile cmd r
  else (false, "Unknown command '" ++ cmd.name ++ "'.", r)

/-- Loop state of `CommandDispatcher::handleExecuteFile`: line counter,
success/failure counters, the diagnostic text appended to `msg` so far, and
the mutable program state `σ` (scene and repository) threaded through the
per-line `execute` calls. -/
structure BatchAcc (σ : Type) where
  lineNo : Nat
  successCount : Nat
  failureCount : Nat
  diag : String
  st : σ
deriving DecidableEq

/-- The `while (!in.atEnd())` loop of `CommandDispatcher::handleExecuteFile`:
each line is trimmed; blank lines are skipped (only the line counter moves);
otherwise the line is parsed (`CommandParser::parse`, modelled by the
`parse` parameter) and on success dispatched (`CommandDispatcher::execute`,
modelled by the `exec` parameter, which also carries the recursive
`execute_file` case); a failed line appends one diagnostic entry and
increments the failure counter, a successful line increments the success
counter, and processing always continues with the next line. -/
def scriptLoop (parse : String → Except String Command)
    (exec : Command → σ → Bool × String × σ) :
    List String → BatchAcc σ → BatchAcc σ
  | [], acc => acc
  | rawLine :: rest, acc =>
    let raw := qtrim rawLine
    let n := acc.lineNo + 1
    if raw = "" then
      scriptLoop parse exec rest { acc with lineNo := n }
    else
      match parse raw with
      | .error e =>
        scriptLoop parse exec rest
          { acc with
            lineNo := n
            failureCount := acc.failureCount + 1
            diag := acc.diag ++ "\nLine " ++ toString n ++ " parse error: " ++ e }
      | .ok c =>
        let res := exec c acc.st
        if res.1 then
          scriptLoop parse exec rest
            { acc with
              lineNo := n
              successCount := acc.successCount + 1
              st := res.2.2 }
        else
          scriptLoop parse exec rest
            { acc with
              lineNo := n
              failureCount := acc.failureCount + 1
              diag := acc.diag ++ "\nLine " ++ toString n ++ " failed: " ++ res.2.1
              st := res.2.2 }

/-- `CommandDispatcher::handleExecuteFile` after the `-file_path` flag check
and a successful file open: run the loop over the file's lines starting
from fresh counters and an empty message, then prepend the aggregate
report.  The boolean result is `failureCount == 0`. -/
def handleExecuteFile (parse : String → Except String Command)
    (exec : Command → σ → Bool × String × σ)
    (lines : List String) (st : σ) : Bool × String × σ :=
  let acc := scriptLoop parse exec lines ⟨0, 0, 0, "", st⟩
  (acc.failureCount == 0,
   "Script executed: " ++ toString acc.successCount ++ " successes, " ++
     toString acc.failureCount ++ " failures." ++ acc.diag,
   acc.st)

/-- Specification-side recount of the loop: per-line outcome statistics
(successes, failures, final state), independent of line numbering and
message building. -/
def scriptStats (parse : String → Except String Command)
    (exec : Command → σ → Bool × String × σ) :
    List String → σ → Nat × Nat × σ
  | [], st => (0, 0, st)
  | rawLine :: rest, st =>
    let raw := qtrim rawLine
    if raw = "" then
      scriptStats parse exec rest st
    else
      match parse raw with
      | .error _ =>
        let t := scriptStats parse exec rest st
        (t.1, t.2.1 + 1, t.2.2)
      | .ok c =>
        let res := exec c st
        let t := scriptStats parse exec rest res.2.2
        if res.1 then (t.1 + 1, t.2.1, t.2.2) else (t.1, t.2.1 + 1, t.2.2)

/-- Specification-side list of diagnostic entries: exactly one entry per
failed line, in file order, with the line number each entry reports. -/
def scriptEntries (parse : String → Except String Command)
    (exec : Command → σ → Bool × String × σ) :
    List String → Nat → σ → List String
  | [], _, _ => []
  | rawLine :: rest, n, st =>
    let raw := qtrim rawLine
    if raw = "" then
      scriptEntries parse exec rest (n + 1) st
    else
      match parse raw with
      | .error e =>
        ("\nLine " ++ toString (n + 1) ++ " parse error: " ++ e) ::
          scriptEntries parse exec rest (n + 1) st
      | .ok c =>
        let res := exec c st
        if res.1 then scriptEntries parse exec rest (n + 1) res.2.2
        else
          ("\nLine " ++ toString (n + 1) ++ " failed: " ++ res.2.1) ::
            scriptEntries parse exec rest (n + 1) res.2.2

/-- Opening brace character of the coordinate grammar (written via its code
point). -/
def lbrace : Char := Char.ofNat 123

/-- Closing brace character of the coordinate grammar. -/
def rbrace : Char := Char.ofNat 125

/-- Helper for the whitespace split performed by `CommandParser::parse`:
collect maximal runs of non-whitespace characters, dropping empty parts. -/
def splitWSAux : List Char → List Char → List String
  | [], cur => if cur.isEmpty then [] else [String.mk cur.reverse]
  | c :: cs, cur =>
    if isWS c then
      if cur.isEmpty then splitWSAux cs []
      else String.mk cur.reverse :: splitWSAux cs []
    else splitWSAux cs (c :: cur)

/-- `raw.split(QRegularExpression("\\s+"), Qt::SkipEmptyParts)` in
`CommandParser::parse`: tokenize one command line by runs of whitespace. -/
def tokenize (s : String) : List String := splitWSAux s.data []

/-- Consume a run of decimal digits (the `\d+` pieces of the coordinate
pattern), returning their value, how many there were, and the rest. -/
def takeDigits : List Char → Nat → Nat → Nat × Nat × List Char
  | [], acc, k => (acc, k, [])
  | c :: cs, acc, k =>
    if c.isDigit then takeDigits cs (acc * 10 + (c.toNat - 48)) (k + 1)
    else (acc, k, c :: cs)

/-- The unsigned numeric part of a coordinate capture — digits with an
optional fractional part — combined with the `QString::toDouble` conversion
of the captured text (which cannot fail on such a capture), read as an
exact rational. -/
def parseUnsigned (cs : List Char) : Option (ℚ × List Char) :=
  match takeDigits cs 0 0 with
  | (_, 0, _) => none
  | (ip, _, rest) =>
    match rest with
    | '.' :: rest2 =>
      match takeDigits rest2 0 0 with
      | (_, 0, _) => none
      | (fp, k, rest3) => some ((ip : ℚ) + (fp : ℚ) / ((10 : ℚ) ^ k), rest3)
    | _ => some ((ip : ℚ), rest)

/-- One optionally-signed capture of `CommandParser::parseCoords`: an
optional leading minus sign followed by an unsigned decimal.  A leading
plus sign is not accepted by the source pattern. -/
def parseSigned (cs : List Char) : Option (ℚ × List Char) :=
  match cs with
  | '-' :: rest => (parseUnsigned rest).map (fun q => (-q.1, q.2))
  | _ => parseUnsigned cs

/-- The optional-whitespace gaps of the coordinate pattern.  Tokens are
produced by splitting on whitespace, so on inputs reaching this function
the skipped run is always empty; it is kept to mirror the pattern. -/
def skipWS (cs : List Char) : List Char := cs.dropWhile isWS

/-- The body of the coordinate pattern after the opening brace: optional
spaces, a signed decimal, optional spaces, a comma, optional spaces, a
signed decimal, optional spaces, and the closing brace ending the token
(the pattern is anchored at both ends). -/
def parseCoordBody (cs : List Char) : Option Pt :=
  match parseSigned (skipWS cs) with
  | none => none
  | some (x, rest) =>
    match skipWS rest with
    | c :: rest2 =>
      if c = ',' then
        match parseSigned (skipWS rest2) with
        | none => none
        | some (y, rest3) =>
          match skipWS rest3 with
          | [c2] => if c2 = rbrace then some (x, y) else none
          | _ => none
      else none
    | [] => none

/-- `CommandParser::parseCoords`: match the whole token against the
anchored brace-number-comma-number-brace pattern and return the two
captured numbers as a point.  (`keyOut` is never written by the source;
the `toDouble` failure branch is unreachable for text matched by the
captures and has no counterpart here.) -/
def CommandParser.parseCoords (t : String) : Option Pt :=
  match t.data with
  | c :: rest => if c = lbrace then parseCoordBody rest else none
  | [] => none

/-- The token loop of `CommandParser::parse` (CommandParser.cpp): tokens
after the command name are scanned left to right; a token starting with
`-coord_` must be followed by a token matching the coordinate pattern
(missing or malformed values are fatal); any other token starting with `-`
consumes the following token verbatim as its value
(`CommandParser::parseFlagValue`, which always succeeds); a token without
the leading dash is a fatal unexpected-token error.  Keys are stored with
the dash stripped (`t.mid(1)`); `QMap::insert` is `insertAssoc`. -/
def parseTokens : List String → Command → Except String Command
  | [], cmd => .ok cmd
  | tok :: rest, cmd =>
    if tok.data.take 7 = "-coord_".data then
      match rest with
      | [] => .error ("Expected coordinate after '" ++ tok ++ "'.")
      | v :: rest2 =>
        match CommandParser.parseCoords v with
        | some pt =>
          parseTokens rest2
            { cmd with coords := insertAssoc cmd.coords (String.mk (tok.data.drop 1)) pt }
        | none => .error ("Invalid coordinate format '" ++ v ++ "'. Expected \x7bx,y\x7d.")
    else if tok.data.take 1 = "-".data then
      match rest with
      | [] => .error ("Expected value after flag '" ++ tok ++ "'.")
      | v :: rest2 =>
        parseTokens rest2
          { cmd with args := insertAssoc cmd.args (String.mk (tok.data.drop 1)) v }
    else .error ("Unexpected token '" ++ tok ++ "'. Flags should start with '-'.")

/-- `CommandParser::parse` (CommandParser.cpp): split the line on runs of
whitespace dropping empty parts; no tokens is an error; the first token
becomes the command name and the remaining tokens are scanned as
flag/value pairs; finally an empty command name is rejected (a defensive
check that cannot fire after a successful split, modelled faithfully). -/
def CommandParser.parse (raw : String) : Except String Command :=
  match tokenize raw with
  | [] => .error "No tokens found in the command."
  | name :: rest =>
    match parseTokens rest { name := name, args := [], coords := [] } with
    | .error e => .error e
    | .ok cmd => if cmd.name = "" then .error "Command name is empty." else .ok cmd

/-- The vertex sequence a shape hands to its graphics item: the polygon for
rectangle and square items, the defining points for line and triangle. -/
def shapePolygon : Shape → List Pt
  | .line p1 p2 => [p1, p2]
  | .triangle p1 p2 p3 => [p1, p2, p3]
  | .rect _ polygon => polygon
  | .square _ polygon => polygon

/-- The stored point list (`m_pts`) of a shape. -/
def shapePts : Shape → List Pt
  | .line p1 p2 => [p1, p2]
  | .triangle p1 p2 p3 => [p1, p2, p3]
  | .rect pts _ => pts
  | .square pts _ => pts

/-- Minimum of four values (used to state order-independence of the
bounding-box computation). -/
def min4 (a b c d : ℚ) : ℚ := min (min (min a b) c) d

/-- Maximum of four values. -/
def max4 (a b c d : ℚ) : ℚ := max (max (max a b) c) d

/-- The spec's notion for Mode B shapes: the axis-aligned bounding box of
the four input points, as the canonical corner sequence
bottom-left, bottom-right, top-right, top-left. -/
def bboxPolygon4 (p1 p2 p3 p4 : Pt) : List Pt :=
  [(min4 p1.1 p2.1 p3.1 p4.1, min4 p1.2 p2.2 p3.2 p4.2),
   (max4 p1.1 p2.1 p3.1 p4.1, min4 p1.2 p2.2 p3.2 p4.2),
   (max4 p1.1 p2.1 p3.1 p4.1, max4 p1.2 p2.2 p3.2 p4.2),
   (min4 p1.1 p2.1 p3.1 p4.1, max4 p1.2 p2.2 p3.2 p4.2)]

/-- The spec's "midpoint of the two endpoints". -/
def midpointSpec (p q : Pt) : Pt := ((p.1 + q.1) / 2, (p.2 + q.2) / 2)

/-- The spec's "centroid (arithmetic mean) of the three vertices". -/
def centroidSpec (p q r : Pt) : Pt :=
  ((p.1 + q.1 + r.1) / 3, (p.2 + q.2 + r.2) / 3)

/-- Concatenation of a list of message fragments (used to state that the
batch report is the aggregate line followed by the failed lines'
diagnostic entries in order). -/
def joinAll (l : List String) : String := l.foldr (fun a b => a ++ b) ""

/-- C1: the spec's test expects `isSquare` to hold for (0,0),(2,0),(2,2),(0,2)
and to fail for (0,0),(3,0),(3,2),(0,2), in every argument order.  The first
conjunct confirms the square case in all 24 orders.  The second conjunct
evaluates the code at the claim's failing input: `isSquare` returns `true`
for the 3×2 rectangle in all 24 argument orders, because the two
nearest-neighbour side estimates taken at the two extreme sorted corners
both pick the short side (4 = 4), so the "all sides equal" check of the
source comment is not actually enforced. -/
theorem claim1_isSquare_eval :
    (([((0 : ℚ), (0 : ℚ)), (2, 0), (2, 2), (0, 2)] : List Pt).permutations'.all
        fun l => Utility.isSquare (l.getD 0 (0, 0)) (l.getD 1 (0, 0)) (l.getD 2 (0, 0))
          (l.getD 3 (0, 0)) Utility.eps6) = true ∧
    (([((0 : ℚ), (0 : ℚ)), (3, 0), (3, 2), (0, 2)] : List Pt).permutations'.all
        fun l => Utility.isSquare (l.getD 0 (0, 0)) (l.getD 1 (0, 0)) (l.getD 2 (0, 0))
          (l.getD 3 (0, 0)) Utility.eps6) = true :=
  ⟨by decide, by decide⟩

/-- C7: the center of a line shape is the midpoint of its two endpoints and
the center of a triangle shape is the centroid of its three vertices; in
particular the line from (0,0) to (5,2) has center (2.5, 1.0). -/
theorem claim7_centers (p1 p2 q1 q2 q3 : Pt) :
    (Shape.line p1 p2).center = midpointSpec p1 p2 ∧
    (Shape.triangle q1 q2 q3).center = centroidSpec q1 q2 q3 ∧
    (Shape.line (0, 0) (5, 2)).center = (5 / 2, 1) :=
  ⟨rfl, rfl, by decide⟩

/-- C8: `handleConnect` never modifies the registry — the registry after the
call is exactly the registry before, in every success and failure path — and
it succeeds precisely when both `object_name` flags are present and both
names resolve in the registry. -/
theorem claim8_connect_frame (cmd : Command) (r : Registry) :
    (handleConnect cmd r).2.2 = r ∧
    ((handleConnect cmd r).1 = true ↔
      cmd.argsContains "object_name_1" = true ∧
      cmd.argsContains "object_name_2" = true ∧
      (ShapeRepository.get r ((lookupAssoc cmd.args "object_name_1").getD "")).isSome = true ∧
      (ShapeRepository.get r ((lookupAssoc cmd.args "object_name_2").getD "")).isSome = true) := by
  unfold handleConnect
  cases h1 : cmd.argsContains "object_name_1" with
  | false => simp [h1]
  | true =>
    cases h2 : cmd.argsContains "object_name_2" with
    | false => simp [h1, h2]
    | true =>
      simp only [h1, h2, Bool.not_true, Bool.or_self, Bool.false_eq_true, if_false]
      cases hg1 : ShapeRepository.get r ((lookupAssoc cmd.args "object_name_1").getD "") with
      | none => simp [hg1]
      | some s1 =>
        cases hg2 : ShapeRepository.get r ((lookupAssoc cmd.args "object_name_2").getD "") with
        | none => simp [hg1, hg2]
        | some s2 => simp [hg1, hg2]

/-- Helper: `isRectangle` accepts four copies of the same point with the
default tolerance — every edge vector is zero, so every dot product and
every side-length difference is 0, below `1e-6`. -/
theorem isRectangle_same_point (p : Pt) :
    Utility.isRectangle p p p p Utility.eps6 = true := by
  have hlt : Utility.ptLT p p = false := by
    simp [Utility.ptLT]
  simp [Utility.isRectangle, Utility.sortPts, Utility.insertPt, hlt,
    Utility.isRightAngle, Utility.sub, Utility.dot, Utility.dist2, Utility.eps6]

/-- C9: `isRectangle(p,p,p,p)` holds for every point with the default
tolerance, and consequently `create_rectangle` given the same point for all
four corners (with a fresh non-empty name) succeeds and registers a
degenerate zero-area rectangle whose stored points and rendered polygon are
four copies of that point. -/
theorem claim9_degenerate_rectangle (p : Pt) (v : String) (cmd : Command) (r : Registry)
    (hname : lookupAssoc cmd.args "name" = some v)
    (hne : qtrim v ≠ "")
    (hfresh : ShapeRepository.contains r (qtrim v) = false)
    (hc : ∀ k ∈ ["coord_1", "coord_2", "coord_3", "coord_4"],
      lookupAssoc cmd.coords k = some p) :
    Utility.isRectangle p p p p Utility.eps6 = true ∧
    handleCreateRectangle cmd r =
      (true, "Rectangle '" ++ qtrim v ++ "' created from four corners.",
       ShapeRepository.add r (qtrim v) (Shape.rect [p, p, p, p] [p, p, p, p])) := by
  have hc1 := hc "coord_1" (by simp)
  have hc2 := hc "coord_2" (by simp)
  have hc3 := hc "coord_3" (by simp)
  have hc4 := hc "coord_4" (by simp)
  refine ⟨isRectangle_same_point p, ?_⟩
  simp [handleCreateRectangle, requireName, hname, hne, validateUniqueName, hfresh,
    Command.coordsContains, hc1, hc2, hc3, hc4, isRectangle_same_point p,
    RectangleShape.fromCorners]

/-- Witness for C9 at the concrete point (1,2), name `r1`, empty registry. -/
theorem claim9_witness :
    Utility.isRectangle ((1 : ℚ), (2 : ℚ)) (1, 2) (1, 2) (1, 2) Utility.eps6 = true ∧
    handleCreateRectangle
        ⟨"create_rectangle", [("name", "r1")],
          [("coord_1", (1, 2)), ("coord_2", (1, 2)), ("coord_3", (1, 2)),
           ("coord_4", (1, 2))]⟩ [] =
      (true, "Rectangle '" ++ qtrim "r1" ++ "' created from four corners.",
       ShapeRepository.add [] (qtrim "r1")
         (Shape.rect [(1, 2), (1, 2), (1, 2), (1, 2)] [(1, 2), (1, 2), (1, 2), (1, 2)])) :=
  claim9_degenerate_rectangle (1, 2) "r1" _ [] rfl (by decide) (by decide) (by decide)

/-- C5: whenever a name is already present in the registry, every
`create_line`, `create_triangle`, `create_rectangle` or `create_square`
command carrying that name (as its trimmed `-name` value) fails through the
dispatcher with the duplicate-name error, and the registry is returned
unchanged — no shape is added and no existing shape is replaced. -/
theorem claim5_duplicate_name (s : ℚ → ℚ)
    (runFile : Command → Registry → Bool × String × Registry)
    (cmd : Command) (r : Registry) (v : String)
    (hn : cmd.name = "create_line" ∨ cmd.name = "create_triangle" ∨
      cmd.name = "create_rectangle" ∨ cmd.name = "create_square")
    (hname : lookupAssoc cmd.args "name" = some v)
    (hne : qtrim v ≠ "")
    (hdup : ShapeRepository.contains r (qtrim v) = true) :
    CommandDispatcher.execute s runFile cmd r =
      (false, "An object named '" ++ qtrim v ++ "' already exists. Choose a unique name.",
       r) := by
  rcases hn with h | h | h | h <;>
    simp [CommandDispatcher.execute, h, handleCreateLine, handleCreateTriangle,
      handleCreateRectangle, handleCreateSquare, requireName, hname, hne,
      validateUniqueName, hdup]

/-- Witness for C5: a registry already holding `A`, and a `create_line`
command reusing the name. -/
theorem claim5_witness :
    CommandDispatcher.execute (fun _ => 0) (fun _ st => (false, "", st))
        ⟨"create_line", [("name", "A")], []⟩ [("A", Shape.line (0, 0) (1, 1))] =
      (false, "An object named '" ++ qtrim "A" ++ "' already exists. Choose a unique name.",
       [("A", Shape.line (0, 0) (1, 1))]) :=
  claim5_duplicate_name (fun _ => 0) (fun _ st => (false, "", st)) _ _ "A"
    (Or.inl rfl) rfl (by decide) (by decide)

/-- C6: `create_rectangle` in diagonal mode (not all of `coord_1..coord_4`
present; valid fresh name; `coord_1`, `coord_2` present) fails exactly when
the two points share an x coordinate or share a y coordinate in the sense of
`qFuzzyCompare`; otherwise it succeeds and the created rectangle's corners
are the axis-aligned box spanned by the two diagonal points (min/max of
each axis). -/
theorem claim6_rectangle_modeA (cmd : Command) (r : Registry) (v : String) (p1 p2 : Pt)
    (hname : lookupAssoc cmd.args "name" = some v)
    (hne : qtrim v ≠ "")
    (hfresh : ShapeRepository.contains r (qtrim v) = false)
    (h1 : lookupAssoc cmd.coords "coord_1" = some p1)
    (h2 : lookupAssoc cmd.coords "coord_2" = some p2)
    (hnot4 : cmd.coordsContains "coord_3" = false ∨ cmd.coordsContains "coord_4" = false) :
    ((handleCreateRectangle cmd r).1 = false ↔
      qFuzzyCompare p1.1 p2.1 = true ∨ qFuzzyCompare p1.2 p2.2 = true) ∧
    (qFuzzyCompare p1.1 p2.1 = false → qFuzzyCompare p1.2 p2.2 = false →
      handleCreateRectangle cmd r =
        (true, "Rectangle '" ++ qtrim v ++ "' created from diagonal points.",
         ShapeRepository.add r (qtrim v) (RectangleShape.fromDiagonal p1 p2))) ∧
    RectangleShape.fromDiagonal p1 p2 =
      Shape.rect
        [(min p1.1 p2.1, min p1.2 p2.2), (max p1.1 p2.1, min p1.2 p2.2),
         (max p1.1 p2.1, max p1.2 p2.2), (min p1.1 p2.1, max p1.2 p2.2)]
        [(min p1.1 p2.1, min p1.2 p2.2), (max p1.1 p2.1, min p1.2 p2.2),
         (max p1.1 p2.1, max p1.2 p2.2), (min p1.1 p2.1, max p1.2 p2.2)] := by
  have hstep : handleCreateRectangle cmd r =
      (if qFuzzyCompare p1.1 p2.1 || qFuzzyCompare p1.2 p2.2 then
        (false, "Diagonal points must differ in both x and y for a valid rectangle.", r)
      else
        (true, "Rectangle '" ++ qtrim v ++ "' created from diagonal points.",
         ShapeRepository.add r (qtrim v) (RectangleShape.fromDiagonal p1 p2))) := by
    rcases hnot4 with h3 | h4
    · simp [handleCreateRectangle, requireName, hname, hne, validateUniqueName, hfresh,
        h3, requireCoord, h1, h2]
    · simp [handleCreateRectangle, requireName, hname, hne, validateUniqueName, hfresh,
        h4, requireCoord, h1, h2]
  refine ⟨?_, ?_, rfl⟩
  · rw [hstep]
    cases hf1 : qFuzzyCompare p1.1 p2.1 <;> cases hf2 : qFuzzyCompare p1.2 p2.2 <;> simp
  · intro hf1 hf2
    rw [hstep, hf1, hf2]
    simp

/-- Witness for C6 with diagonal (0,0)-(3,2), name `r1`, empty registry. -/
theorem claim6_witness :
    ((handleCreateRectangle
        ⟨"create_rectangle", [("name", "r1")],
          [("coord_1", ((0 : ℚ), (0 : ℚ))), ("coord_2", (3, 2))]⟩ []).1 = false ↔
      qFuzzyCompare 0 3 = true ∨ qFuzzyCompare 0 2 = true) ∧
    (qFuzzyCompare 0 3 = false → qFuzzyCompare 0 2 = false →
      handleCreateRectangle
          ⟨"create_rectangle", [("name", "r1")],
            [("coord_1", (0, 0)), ("coord_2", (3, 2))]⟩ [] =
        (true, "Rectangle '" ++ qtrim "r1" ++ "' created from diagonal points.",
         ShapeRepository.add [] (qtrim "r1") (RectangleShape.fromDiagonal (0, 0) (3, 2)))) ∧
    RectangleShape.fromDiagonal ((0 : ℚ), (0 : ℚ)) (3, 2) =
      Shape.rect
        [(min (0 : ℚ) 3, min (0 : ℚ) 2), (max (0 : ℚ) 3, min (0 : ℚ) 2),
         (max (0 : ℚ) 3, max (0 : ℚ) 2), (min (0 : ℚ) 3, max (0 : ℚ) 2)]
        [(min (0 : ℚ) 3, min (0 : ℚ) 2), (max (0 : ℚ) 3, min (0 : ℚ) 2),
         (max (0 : ℚ) 3, max (0 : ℚ) 2), (min (0 : ℚ) 3, max (0 : ℚ) 2)] :=
  claim6_rectangle_modeA _ [] "r1" (0, 0) (3, 2) rfl (by decide) (by decide) rfl rfl
    (Or.inl (by decide))

/-- C10: the division in the square-from-diagonal construction is guarded by
the explicit `len == 0.0` test, and under the dispatcher's precondition
`isValidSquareDiagonal` (squared diagonal length strictly above `1e-9`) the
zero-length branch is unreachable: for any model `s` of `qSqrt` that is
non-zero on positive arguments, the guard is not taken and the guarded
construction coincides with the unguarded one, so the four corners are the
plain affine combinations of the inputs. -/
theorem claim10_square_diagonal_total (s : ℚ → ℚ) (d1 d2 : Pt)
    (hsqrt : ∀ x : ℚ, 0 < x → s x ≠ 0)
    (hvalid : Utility.isValidSquareDiagonal d1 d2 Utility.eps9 = true) :
    s ((d2.1 - d1.1) * (d2.1 - d1.1) + (d2.2 - d1.2) * (d2.2 - d1.2)) ≠ 0 ∧
    SquareShape.fromDiagonal s d1 d2 = SquareShape.fromDiagonalUnguarded s d1 d2 := by
  have hgt : Utility.dist2 d1 d2 > Utility.eps9 := of_decide_eq_true hvalid
  have heps : (0 : ℚ) < Utility.eps9 := by norm_num [Utility.eps9]
  have hLeq : (d2.1 - d1.1) * (d2.1 - d1.1) + (d2.2 - d1.2) * (d2.2 - d1.2) =
      Utility.dist2 d1 d2 := by
    simp only [Utility.dist2, Utility.sub]
    ring
  have hL : 0 < (d2.1 - d1.1) * (d2.1 - d1.1) + (d2.2 - d1.2) * (d2.2 - d1.2) := by
    rw [hLeq]; exact lt_trans heps hgt
  have hs := hsqrt _ hL
  refine ⟨hs, ?_⟩
  simp [SquareShape.fromDiagonal, SquareShape.fromDiagonalUnguarded, hs]

/-- Witness for C10 with diagonal (0,0)-(3,4) (squared length 25) and the
square-root model constantly 5 (correct at the one value where the source
divides by it). -/
theorem claim10_witness :
    (fun _ : ℚ => (5 : ℚ))
        (((3 : ℚ) - 0) * ((3 : ℚ) - 0) + ((4 : ℚ) - 0) * ((4 : ℚ) - 0)) ≠ 0 ∧
    SquareShape.fromDiagonal (fun _ => 5) (0, 0) (3, 4) =
      SquareShape.fromDiagonalUnguarded (fun _ => 5) (0, 0) (3, 4) :=
  claim10_square_diagonal_total (fun _ => 5) (0, 0) (3, 4)
    (fun _ _ => (by decide : (5 : ℚ) ≠ 0)) (by decide)

/-- `min4` returns one of its four arguments. -/
theorem min4_mem (a b c d : ℚ) : min4 a b c d ∈ [a, b, c, d] := by
  unfold min4
  rcases min_choice (min (min a b) c) d with h | h
  · rw [h]
    rcases min_choice (min a b) c with h2 | h2
    · rw [h2]
      rcases min_choice a b with h3 | h3 <;> rw [h3] <;> simp
    · rw [h2]; simp
  · rw [h]; simp

/-- `min4` is a lower bound of its four arguments. -/
theorem min4_le (a b c d x : ℚ) (h : x ∈ [a, b, c, d]) : min4 a b c d ≤ x := by
  unfold min4
  simp only [List.mem_cons, List.not_mem_nil, or_false] at h
  rcases h with rfl | rfl | rfl | rfl
  · exact le_trans (min_le_left _ _) (le_trans (min_le_left _ _) (min_le_left _ _))
  · exact le_trans (min_le_left _ _) (le_trans (min_le_left _ _) (min_le_right _ _))
  · exact le_trans (min_le_left _ _) (min_le_right _ _)
  · exact min_le_right _ _

/-- `min4` is invariant under permutation of its arguments. -/
theorem min4_perm (a b c d p q r s : ℚ) (h : ([a, b, c, d] : List ℚ).Perm [p, q, r, s]) :
    min4 a b c d = min4 p q r s :=
  le_antisymm
    (min4_le a b c d _ (h.mem_iff.mpr (min4_mem p q r s)))
    (min4_le p q r s _ (h.mem_iff.mp (min4_mem a b c d)))

/-- `max4` returns one of its four arguments. -/
theorem max4_mem (a b c d : ℚ) : max4 a b c d ∈ [a, b, c, d] := by
  unfold max4
  rcases max_choice (max (max a b) c) d with h | h
  · rw [h]
    rcases max_choice (max a b) c with h2 | h2
    · rw [h2]
      rcases max_choice a b with h3 | h3 <;> rw [h3] <;> simp
    · rw [h2]; simp
  · rw [h]; simp

/-- `max4` is an upper bound of its four arguments. -/
theorem le_max4 (a b c d x : ℚ) (h : x ∈ [a, b, c, d]) : x ≤ max4 a b c d := by
  unfold max4
  simp only [List.mem_cons, List.not_mem_nil, or_false] at h
  rcases h with rfl | rfl | rfl | rfl
  · exact le_trans (le_trans (le_max_left _ _) (le_max_left _ _)) (le_max_left _ _)
  · exact le_trans (le_trans (le_max_right _ _) (le_max_left _ _)) (le_max_left _ _)
  · exact le_trans (le_max_right _ _) (le_max_left _ _)
  · exact le_max_right _ _

/-- `max4` is invariant under permutation of its arguments. -/
theorem max4_perm (a b c d p q r s : ℚ) (h : ([a, b, c, d] : List ℚ).Perm [p, q, r, s]) :
    max4 a b c d = max4 p q r s :=
  le_antisymm
    (le_max4 p q r s _ (h.mem_iff.mp (max4_mem a b c d)))
    (le_max4 a b c d _ (h.mem_iff.mpr (max4_mem p q r s)))

/-- C3 counterexample: `create_square` in four-vertex mode with the rotated
square (1,0),(2,1),(1,2),(0,1) succeeds, and the stored/rendered polygon is
the caller's vertex sequence, which is not the axis-aligned bounding box of
the four input points — not even up to reordering of the corners. -/
theorem claim3_counterexample :
    handleCreateSquare (fun _ => 0)
        ⟨"create_square", [("name", "s1")],
          [("coord_1", ((1 : ℚ), (0 : ℚ))), ("coord_2", (2, 1)), ("coord_3", (1, 2)),
           ("coord_4", (0, 1))]⟩ [] =
      (true, "Square 's1' created from four vertices.",
       [("s1", Shape.square [(1, 0), (2, 1), (1, 2), (0, 1)]
          [(1, 0), (2, 1), (1, 2), (0, 1)])]) ∧
    ¬ ([((1 : ℚ), (0 : ℚ)), (2, 1), (1, 2), (0, 1)] : List Pt).Perm
        (bboxPolygon4 (1, 0) (2, 1) (1, 2) (0, 1)) :=
  ⟨by decide, by decide⟩

/-- C3 amended: in four-corner mode, `create_rectangle`'s rendered polygon
is the axis-aligned bounding box of the four input points, independent of
the caller-supplied corner order, while its stored points keep the caller's
order; `create_square` in four-vertex mode performs no bounding-box
normalisation at all — its stored and rendered polygon is exactly the
caller's vertex sequence. -/
theorem claim3_amended (p1 p2 p3 p4 q1 q2 q3 q4 : Pt)
    (h : ([q1, q2, q3, q4] : List Pt).Perm [p1, p2, p3, p4]) :
    shapePolygon (RectangleShape.fromCorners q1 q2 q3 q4) = bboxPolygon4 p1 p2 p3 p4 ∧
    shapePts (RectangleShape.fromCorners q1 q2 q3 q4) = [q1, q2, q3, q4] ∧
    shapePolygon (SquareShape.fromVertices q1 q2 q3 q4) = [q1, q2, q3, q4] ∧
    shapePts (SquareShape.fromVertices q1 q2 q3 q4) = [q1, q2, q3, q4] := by
  have hx := h.map Prod.fst
  have hy := h.map Prod.snd
  simp only [List.map_cons, List.map_nil] at hx hy
  have e1 := min4_perm _ _ _ _ _ _ _ _ hx
  have e2 := max4_perm _ _ _ _ _ _ _ _ hx
  have e3 := min4_perm _ _ _ _ _ _ _ _ hy
  have e4 := max4_perm _ _ _ _ _ _ _ _ hy
  simp only [min4, max4] at e1 e2 e3 e4
  refine ⟨?_, rfl, rfl, rfl⟩
  simp only [RectangleShape.fromCorners, shapePolygon, bboxPolygon4, min4, max4,
    min_self, max_self]
  rw [e1, e2, e3, e4]

/-- Witness for C3 with a non-identity ordering of the rotated square's
vertices. -/
theorem claim3_witness :
    shapePolygon (RectangleShape.fromCorners (2, 1) (1, 0) (0, 1) (1, 2)) =
      bboxPolygon4 ((1 : ℚ), (0 : ℚ)) (2, 1) (1, 2) (0, 1) ∧
    shapePts (RectangleShape.fromCorners (2, 1) (1, 0) (0, 1) (1, 2)) =
      [(2, 1), (1, 0), (0, 1), (1, 2)] ∧
    shapePolygon (SquareShape.fromVertices (2, 1) (1, 0) (0, 1) (1, 2)) =
      [(2, 1), (1, 0), (0, 1), (1, 2)] ∧
    shapePts (SquareShape.fromVertices (2, 1) (1, 0) (0, 1) (1, 2)) =
      [(2, 1), (1, 0), (0, 1), (1, 2)] :=
  claim3_amended (1, 0) (2, 1) (1, 2) (0, 1) (2, 1) (1, 0) (0, 1) (1, 2) (by decide)

/-- The loop of `handleExecuteFile` computes exactly the per-line statistics
of `scriptStats`: final success count, failure count and program state are
the accumulator's plus the script's, independent of line numbering and of
the diagnostic text accumulated so far. -/
theorem scriptLoop_stats {σ : Type} (p : String → Except String Command)
    (e : Command → σ → Bool × String × σ) (lines : List String) :
    ∀ acc : BatchAcc σ,
    (scriptLoop p e lines acc).successCount =
      acc.successCount + (scriptStats p e lines acc.st).1 ∧
    (scriptLoop p e lines acc).failureCount =
      acc.failureCount + (scriptStats p e lines acc.st).2.1 ∧
    (scriptLoop p e lines acc).st = (scriptStats p e lines acc.st).2.2 := by
  induction lines with
  | nil => intro acc; simp [scriptLoop, scriptStats]
  | cons l rest ih =>
    intro acc
    by_cases hb : qtrim l = ""
    · simp only [scriptLoop, scriptStats, if_pos hb]
      exact ih _
    · cases hp : p (qtrim l) with
      | error err =>
        simp only [scriptLoop, scriptStats, if_neg hb, hp]
        obtain ⟨ihs, ihf, ihst⟩ := ih
          { acc with
            lineNo := acc.lineNo + 1
            failureCount := acc.failureCount + 1
            diag := acc.diag ++ "\nLine " ++ toString (acc.lineNo + 1) ++
              " parse error: " ++ err }
        simp only at ihs ihf ihst
        refine ⟨ihs, ?_, ihst⟩
        omega
      | ok c =>
        rcases hres : e c acc.st with ⟨ok, ms, st'⟩
        cases ok with
        | true =>
          simp only [scriptLoop, scriptStats, if_neg hb, hp, hres, if_pos]
          obtain ⟨ihs, ihf, ihst⟩ := ih
            { acc with
              lineNo := acc.lineNo + 1
              successCount := acc.successCount + 1
              st := st' }
          simp only at ihs ihf ihst
          refine ⟨?_, ihf, ihst⟩
          omega
        | false =>
          simp only [scriptLoop, scriptStats, if_neg hb, hp, hres, Bool.false_eq_true,
            ite_false]
          obtain ⟨ihs, ihf, ihst⟩ := ih
            { acc with
              lineNo := acc.lineNo + 1
              failureCount := acc.failureCount + 1
              diag := acc.diag ++ "\nLine " ++ toString (acc.lineNo + 1) ++
                " failed: " ++ ms
              st := st' }
          simp only at ihs ihf ihst
          refine ⟨ihs, ?_, ihst⟩
          omega

/-- The diagnostic text accumulated by the loop is the text already in the
accumulator followed by the concatenation of the per-failed-line entries, in
file order. -/
theorem scriptLoop_diag {σ : Type} (p : String → Except String Command)
    (e : Command → σ → Bool × String × σ) (lines : List String) :
    ∀ acc : BatchAcc σ,
    (scriptLoop p e lines acc).diag =
      acc.diag ++ joinAll (scriptEntries p e lines acc.lineNo acc.st) := by
  induction lines with
  | nil => intro acc; simp [scriptLoop, scriptEntries, joinAll]
  | cons l rest ih =>
    intro acc
    by_cases hb : qtrim l = ""
    · simp only [scriptLoop, scriptEntries, if_pos hb]
      exact ih _
    · cases hp : p (qtrim l) with
      | error err =>
        simp only [scriptLoop, scriptEntries, if_neg hb, hp]
        have h := ih
          { acc with
            lineNo := acc.lineNo + 1
            failureCount := acc.failureCount + 1
            diag := acc.diag ++ "\nLine " ++ toString (acc.lineNo + 1) ++
              " parse error: " ++ err }
        simp only at h
        rw [h]
        simp [joinAll, String.append_assoc]
      | ok c =>
        rcases hres : e c acc.st with ⟨ok, ms, st'⟩
        cases ok with
        | true =>
          simp only [scriptLoop, scriptEntries, if_neg hb, hp, hres, if_pos]
          have h := ih
            { acc with
              lineNo := acc.lineNo + 1
              successCount := acc.successCount + 1
              st := st' }
          simp only at h
          exact h
        | false =>
          simp only [scriptLoop, scriptEntries, if_neg hb, hp, hres, Bool.false_eq_true,
            ite_false]
          have h := ih
            { acc with
              lineNo := acc.lineNo + 1
              failureCount := acc.failureCount + 1
              diag := acc.diag ++ "\nLine " ++ toString (acc.lineNo + 1) ++
                " failed: " ++ ms
              st := st' }
          simp only at h
          rw [h]
          simp [joinAll, String.append_assoc]

/-- There is exactly one diagnostic entry per failed line. -/
theorem scriptEntries_length {σ : Type} (p : String → Except String Command)
    (e : Command → σ → Bool × String × σ) (lines : List String) :
    ∀ (n : Nat) (st : σ),
    (scriptEntries p e lines n st).length = (scriptStats p e lines st).2.1 := by
  induction lines with
  | nil => intro n st; simp [scriptEntries, scriptStats]
  | cons l rest ih =>
    intro n st
    by_cases hb : qtrim l = ""
    · simp only [scriptEntries, scriptStats, if_pos hb]
      exact ih _ _
    · cases hp : p (qtrim l) with
      | error err =>
        simp only [scriptEntries, scriptStats, if_neg hb, hp, List.length_cons]
        rw [ih]
      | ok c =>
        rcases hres : e c st with ⟨ok, ms, st'⟩
        cases ok with
        | true =>
          simp only [scriptEntries, scriptStats, if_neg hb, hp, hres, if_pos]
          exact ih _ _
        | false =>
          simp only [scriptEntries, scriptStats, if_neg hb, hp, hres, Bool.false_eq_true,
            ite_false, List.length_cons]
          rw [ih]

/-- Every line that is non-blank after trimming contributes exactly one to
the combined success/failure count; blank lines contribute nothing. -/
theorem scriptStats_count {σ : Type} (p : String → Except String Command)
    (e : Command → σ → Bool × String × σ) (lines : List String) :
    ∀ st : σ,
    (scriptStats p e lines st).1 + (scriptStats p e lines st).2.1 =
      lines.countP (fun l => !(qtrim l == "")) := by
  induction lines with
  | nil => intro st; simp [scriptStats]
  | cons l rest ih =>
    intro st
    rw [List.countP_cons]
    by_cases hb : qtrim l = ""
    · simp only [scriptStats, if_pos hb]
      rw [ih]
      simp [hb]
    · have hbne : (!(qtrim l == "")) = true := by
        simp [hb]
      rw [hbne, if_pos rfl]
      cases hp : p (qtrim l) with
      | error err =>
        simp only [scriptStats, if_neg hb, hp]
        have := ih st
        omega
      | ok c =>
        rcases hres : e c st with ⟨ok, ms, st'⟩
        cases ok with
        | true =>
          simp only [scriptStats, if_neg hb, hp, hres, if_pos]
          have := ih st'
          omega
        | false =>
          simp only [scriptStats, if_neg hb, hp, hres, Bool.false_eq_true, ite_false]
          have := ih st'
          omega

/-- Inserting a line that is blank after trimming anywhere in a script
changes none of the per-line statistics: success count, failure count and
final state are those of the script without it. -/
theorem scriptStats_blank_insert {σ : Type} (p : String → Except String Command)
    (e : Command → σ → Bool × String × σ) (b : String) (hb : qtrim b = "")
    (post : List String) :
    ∀ (pre : List String) (st : σ),
    scriptStats p e (pre ++ b :: post) st = scriptStats p e (pre ++ post) st := by
  intro pre
  induction pre with
  | nil =>
    intro st
    simp only [List.nil_append]
    simp only [scriptStats, if_pos hb]
  | cons x xs ih =>
    intro st
    simp only [List.cons_append]
    by_cases hbx : qtrim x = ""
    · simp only [scriptStats, if_pos hbx]
      exact ih _
    · cases hp : p (qtrim x) with
      | error err =>
        simp only [scriptStats, if_neg hbx, hp]
        rw [ih]
      | ok c =>
        rcases hres : e c st with ⟨ok, ms, st'⟩
        cases ok with
        | true =>
          simp only [scriptStats, if_neg hbx, hp, hres, if_pos]
          rw [ih]
        | false =>
          simp only [scriptStats, if_neg hbx, hp, hres, Bool.false_eq_true, ite_false]
          rw [ih]

/-- C4: for a readable script, `handleExecuteFile` reports failure exactly
when at least one processed line failed (so zero processed lines is a
vacuous success); its message is the aggregate success/failure counts
followed by one diagnostic entry per failed line in file order; and every
line that is non-blank after trimming is processed — failures never stop
the loop. -/
theorem claim4_execute_file_report {σ : Type} (p : String → Except String Command)
    (e : Command → σ → Bool × String × σ) (lines : List String) (st : σ) :
    ((handleExecuteFile p e lines st).1 = false ↔ (scriptStats p e lines st).2.1 ≠ 0) ∧
    (handleExecuteFile p e lines st).2.1 =
      "Script executed: " ++ toString (scriptStats p e lines st).1 ++ " successes, " ++
        toString (scriptStats p e lines st).2.1 ++ " failures." ++
        joinAll (scriptEntries p e lines 0 st) ∧
    (scriptEntries p e lines 0 st).length = (scriptStats p e lines st).2.1 ∧
    (scriptStats p e lines st).1 + (scriptStats p e lines st).2.1 =
      lines.countP (fun l => !(qtrim l == "")) := by
  obtain ⟨hs, hf, hst⟩ := scriptLoop_stats p e lines ⟨0, 0, 0, "", st⟩
  have hd := scriptLoop_diag p e lines ⟨0, 0, 0, "", st⟩
  simp only at hs hf hst hd
  refine ⟨?_, ?_, scriptEntries_length p e lines 0 st, scriptStats_count p e lines st⟩
  · simp only [handleExecuteFile, hf]
    simp [beq_eq_false_iff_ne]
  · simp only [handleExecuteFile, hs, hf, hd]
    simp

/-- C2 counterexample: in a script consisting of the single line
`# comment` (whose first non-space character is the `#` sign), the line is
not skipped: with the repository's parser and dispatcher it is processed
(the parser rejects it with an unexpected-token error), counted as one
failure, and makes the batch fail. -/
theorem claim2_counterexample :
    ("# comment".data.dropWhile isWS).head? = some (Char.ofNat 35) ∧
    (scriptStats CommandParser.parse
        (fun c st => CommandDispatcher.execute (fun _ => 0) (fun _ st' => (false, "", st')) c st)
        ["# comment"] ([] : Registry)).2.1 = 1 ∧
    (handleExecuteFile CommandParser.parse
        (fun c st => CommandDispatcher.execute (fun _ => 0) (fun _ st' => (false, "", st')) c st)
        ["# comment"] ([] : Registry)).1 = false :=
  ⟨by decide, by decide, by decide⟩

/-- C2 amended: during `execute_file` only lines that are blank after
trimming are skipped — inserting such a line anywhere changes neither the
overall flag nor the per-line statistics nor the final state — while every
other line, including lines whose first non-space character is the comment
sign, is parsed and dispatched and contributes exactly one to the combined
success/failure count, for every parser and dispatcher behaviour. -/
theorem claim2_amended {σ : Type} (p : String → Except String Command)
    (e : Command → σ → Bool × String × σ) (pre post : List String) (b : String) (st : σ)
    (hb : qtrim b = "") :
    (handleExecuteFile p e (pre ++ b :: post) st).1 =
      (handleExecuteFile p e (pre ++ post) st).1 ∧
    (handleExecuteFile p e (pre ++ b :: post) st).2.2 =
      (handleExecuteFile p e (pre ++ post) st).2.2 ∧
    scriptStats p e (pre ++ b :: post) st = scriptStats p e (pre ++ post) st ∧
    (scriptStats p e (pre ++ post) st).1 + (scriptStats p e (pre ++ post) st).2.1 =
      (pre ++ post).countP (fun l => !(qtrim l == "")) := by
  have hEq := scriptStats_blank_insert p e b hb post pre st
  obtain ⟨hs1, hf1, hst1⟩ := scriptLoop_stats p e (pre ++ b :: post) ⟨0, 0, 0, "", st⟩
  obtain ⟨hs2, hf2, hst2⟩ := scriptLoop_stats p e (pre ++ post) ⟨0, 0, 0, "", st⟩
  simp only at hs1 hf1 hst1 hs2 hf2 hst2
  refine ⟨?_, ?_, hEq, scriptStats_count p e (pre ++ post) st⟩
  · simp only [handleExecuteFile, hf1, hf2, hEq]
  · simp only [handleExecuteFile, hst1, hst2, hEq]

/-- Witness for C2 (amended) with the blank line `"   "` inserted before a
non-blank line, the repository's parser and the dispatcher. -/
theorem claim2_witness :
    (handleExecuteFile CommandParser.parse
        (fun c st => CommandDispatcher.execute (fun _ => 0) (fun _ st' => (false, "", st')) c st)
        ([] ++ "   " :: ["bogus"]) ([] : Registry)).1 =
      (handleExecuteFile CommandParser.parse
        (fun c st => CommandDispatcher.execute (fun _ => 0) (fun _ st' => (false, "", st')) c st)
        ([] ++ ["bogus"]) ([] : Registry)).1 ∧
    (handleExecuteFile CommandParser.parse
        (fun c st => CommandDispatcher.execute (fun _ => 0) (fun _ st' => (false, "", st')) c st)
        ([] ++ "   " :: ["bogus"]) ([] : Registry)).2.2 =
      (handleExecuteFile CommandParser.parse
        (fun c st => CommandDispatcher.execute (fun _ => 0) (fun _ st' => (false, "", st')) c st)
        ([] ++ ["bogus"]) ([] : Registry)).2.2 ∧
    scriptStats CommandParser.parse
        (fun c st => CommandDispatcher.execute (fun _ => 0) (fun _ st' => (false, "", st')) c st)
        ([] ++ "   " :: ["bogus"]) ([] : Registry) =
      scriptStats CommandParser.parse
        (fun c st => CommandDispatcher.execute (fun _ => 0) (fun _ st' => (false, "", st')) c st)
        ([] ++ ["bogus"]) ([] : Registry) ∧
    (scriptStats CommandParser.parse
        (fun c st => CommandDispatcher.execute (fun _ => 0) (fun _ st' => (false, "", st')) c st)
        ([] ++ ["bogus"]) ([] : Registry)).1 +
      (scriptStats CommandParser.parse
        (fun c st => CommandDispatcher.execute (fun _ => 0) (fun _ st' => (false, "", st')) c st)
        ([] ++ ["bogus"]) ([] : Registry)).2.1 =
      ([] ++ ["bogus"]).countP (fun l => !(qtrim l == "")) :=
  claim2_amended CommandParser.parse
    (fun c st => CommandDispatcher.execute (fun _ => 0) (fun _ st' => (false, "", st')) c st)
    [] ["bogus"] "   " [] (by decide)
